import Mathlib

/-!
Verification of the ACTP transaction state-machine, escrow and attestation
protocol specified for the agirails SDK examples repository.

The repository's own source contains only thin example scripts plus the
display helpers in `src/utils/helpers.ts`; the protocol itself lives in the
external `@agirails/sdk` package.  The `ACTP` namespace therefore models the
kernel, escrow ledger, dispute resolver and attestation verifier directly
from the specification, while the `Helpers` namespace embeds the display
helpers from the repository's source.
-/

namespace ACTP

/-- Modelled from the spec: the transaction states of the ACTP state machine
(the `State` enum of the external SDK, absent from this repository), in
enum/ordinal order. -/
inductive State where
  | INITIATED
  | QUOTED
  | COMMITTED
  | IN_PROGRESS
  | DELIVERED
  | SETTLED
  | DISPUTED
  | CANCELLED
deriving DecidableEq

/-- Modelled from the spec: the ordinal of each state, used by the
forward-only transition rule. -/
def ordinal : State → Nat
  | .INITIATED => 0
  | .QUOTED => 1
  | .COMMITTED => 2
  | .IN_PROGRESS => 3
  | .DELIVERED => 4
  | .SETTLED => 5
  | .DISPUTED => 6
  | .CANCELLED => 7

/-- Modelled from the spec: `SETTLED` and `CANCELLED` are terminal states. -/
def isTerminal : State → Bool
  | .SETTLED => true
  | .CANCELLED => true
  | _ => false

/-- Modelled from the spec: the error taxonomy of the protocol core
(the spec names no error kind for `createTransaction` validation failures,
so the model uses a dedicated `ValidationError`; likewise
`AttestationVerificationError` stands for the unnamed error with which a
failed attestation verification aborts a release). -/
inductive KError where
  | InvalidStateError
  | ValidationError
  | InsufficientFundsError
  | AmountMismatchError
  | ResolutionAmountMismatchError
  | AlreadyReleasedError
  | DisputeWindowActiveError
  | DisputeWindowExpiredError
  | ReplayedAttestationError
  | UnauthorizedError
  | AttestationVerificationError
deriving DecidableEq

/-- Modelled from the spec: a transaction record of the TransactionStore
(absent from this repository).  Account addresses are abstract identities,
modelled as naturals; times and amounts are integers (seconds, smallest
currency units). -/
structure Transaction where
  id : Nat
  requester : Nat
  provider : Nat
  amount : Int
  deadline : Int
  disputeWindow : Int
  state : State
  escrowId : Option Nat
  deliveredAt : Option Int
  proofReference : Option String
deriving DecidableEq

/-- Modelled from the spec: an escrow record of the EscrowLedger (absent
from this repository). -/
structure Escrow where
  id : Nat
  transactionId : Nat
  amount : Int
  locked : Bool
  released : Bool
deriving DecidableEq

/-- Modelled from the spec: one payout entry of a release call (`dest`
models the spec's `to` field, which is a reserved word in Lean). -/
structure Payout where
  dest : Nat
  amount : Int
deriving DecidableEq

/-- Modelled from the spec: a dispute resolution split. -/
structure Resolution where
  requesterAmount : Int
  providerAmount : Int
  mediatorAmount : Int
deriving DecidableEq

/-- Modelled from the spec: an attestation record from the attestation
service (absent from this repository). -/
structure Attestation where
  uid : String
  schema : String
  attester : Nat
  recipient : Nat
  revocationTime : Int
  contentHash : String
deriving DecidableEq

/-- Modelled from the spec: the attestation verifier's configured
delivery-proof schema. -/
structure VerifierConfig where
  deliverySchema : String
deriving DecidableEq

/-- Modelled from the spec: `sum(payouts.amount)`. -/
def payoutSum : List Payout → Int
  | [] => 0
  | p :: t => p.amount + payoutSum t

/-- Modelled from the spec: the total amount a payouts list pays to one
recipient. -/
def sumTo (a : Nat) : List Payout → Int
  | [] => 0
  | p :: t => (if p.dest = a then p.amount else 0) + sumTo a t

/-- Modelled from the spec: credit one recipient's balance. -/
def credit (b : Nat → Int) (who : Nat) (amt : Int) : Nat → Int :=
  fun x => if x = who then b x + amt else b x

/-- Modelled from the spec: pay out each entry of a payouts list. -/
def applyPayouts (b : Nat → Int) (ps : List Payout) : Nat → Int :=
  ps.foldl (fun acc p => credit acc p.dest p.amount) b

/-- Modelled from the spec: `EscrowLedger.release(escrowId, payouts)`
(absent from this repository).  Validates `escrow.locked && !escrow.released`
(failing with `AlreadyReleasedError`) and `sum(payouts.amount) ==
escrow.amount` (failing with `AmountMismatchError`); on success pays out to
each recipient and marks `released = true`, `locked = false`. -/
def release (e : Escrow) (b : Nat → Int) (ps : List Payout) :
    Except KError (Escrow × (Nat → Int)) :=
  if e.released then .error .AlreadyReleasedError
  else if ¬ e.locked then .error .AlreadyReleasedError
  else if payoutSum ps ≠ e.amount then .error .AmountMismatchError
  else .ok ({ e with released := true, locked := false }, applyPayouts b ps)

/-- Modelled from the spec: `DisputeResolver.resolve(escrow, resolution)`
(absent from this repository).  Validates that the three split amounts are
non-negative and sum exactly to the escrow amount, rejecting with
`ResolutionAmountMismatchError` before any fund movement, then releases with
the corresponding payouts; a second resolve after a successful release fails
with `AlreadyReleasedError`. -/
def resolve (requester provider mediator : Nat) (e : Escrow) (b : Nat → Int)
    (r : Resolution) : Except KError (Escrow × (Nat → Int)) :=
  if e.released then .error .AlreadyReleasedError
  else if r.requesterAmount < 0 ∨ r.providerAmount < 0 ∨ r.mediatorAmount < 0 then
    .error .ResolutionAmountMismatchError
  else if r.requesterAmount + r.providerAmount + r.mediatorAmount ≠ e.amount then
    .error .ResolutionAmountMismatchError
  else
    release e b [⟨requester, r.requesterAmount⟩, ⟨provider, r.providerAmount⟩,
      ⟨mediator, r.mediatorAmount⟩]

/-- Modelled from the spec: `createTransaction(requester, provider, amount,
deadline, disputeWindow)` of the kernel (absent from this repository).
Fails exactly when `amount ≤ 0`, `deadline ≤ now`, or `disputeWindow` is
below the configured policy minimum; otherwise returns a fresh transaction
in `INITIATED`. -/
def createTransaction (now policyMin : Int) (freshId requester provider : Nat)
    (amount deadline disputeWindow : Int) : Except KError Transaction :=
  if amount ≤ 0 ∨ deadline ≤ now ∨ disputeWindow < policyMin then
    .error .ValidationError
  else
    .ok { id := freshId, requester := requester, provider := provider,
          amount := amount, deadline := deadline, disputeWindow := disputeWindow,
          state := .INITIATED, escrowId := none, deliveredAt := none,
          proofReference := none }

/-- Modelled from the spec: `linkEscrow(txId, amount)` of the kernel (absent
from this repository).  Fails with `InvalidStateError` unless the
transaction is in `INITIATED` or `QUOTED`, and with `InsufficientFundsError`
if the funding source cannot cover the amount; otherwise creates an escrow
record equal to the transaction's amount, sets `escrowId` and
auto-transitions to `COMMITTED`. -/
def linkEscrow (tx : Transaction) (funder : Int) (eid : Nat) :
    Except KError (Transaction × Escrow) :=
  if tx.state ≠ State.INITIATED ∧ tx.state ≠ State.QUOTED then
    .error .InvalidStateError
  else if funder < tx.amount then .error .InsufficientFundsError
  else
    .ok ({ tx with escrowId := some eid, state := .COMMITTED },
         { id := eid, transactionId := tx.id, amount := tx.amount,
           locked := true, released := false })

/-- Modelled from the spec: `transitionState(txId, target, proof?)` of the
kernel (absent from this repository).  Terminal states allow no operation;
otherwise the forward-only rule applies: the target ordinal must be strictly
greater than the current one, except for the directed edge
`DISPUTED → SETTLED`; a transition to `DELIVERED` records the proof and
starts the dispute-window clock. -/
def transitionState (now : Int) (tx : Transaction) (target : State)
    (proof : Option String) : Except KError Transaction :=
  if isTerminal tx.state then .error .InvalidStateError
  else if ordinal target ≤ ordinal tx.state ∧
      ¬(tx.state = State.DISPUTED ∧ target = State.SETTLED) then
    .error .InvalidStateError
  else if target = State.DELIVERED then
    .ok { tx with state := target, deliveredAt := some now, proofReference := proof }
  else .ok { tx with state := target }

/-- Modelled from the spec: `raiseDispute(txId, reason, evidenceRef)` of the
kernel (absent from this repository).  Only legal from `DELIVERED`, and only
while the absolute deadline `deliveredAt + disputeWindow`, evaluated at call
time, has not passed; transitions to `DISPUTED`. -/
def raiseDispute (now : Int) (tx : Transaction) (_reason _evidenceRef : String) :
    Except KError Transaction :=
  if tx.state ≠ State.DELIVERED then .error .InvalidStateError
  else
    match tx.deliveredAt with
    | none => .error .InvalidStateError
    | some d =>
      if now < d + tx.disputeWindow then .ok { tx with state := .DISPUTED }
      else .error .DisputeWindowExpiredError

/-- Modelled from the spec: look up an attestation record by uid. -/
def lookupAttestation (store : List Attestation) (uid : String) :
    Option Attestation :=
  store.find? (fun a => a.uid == uid)

/-- Modelled from the spec: `AttestationVerifier.verify(txId, attestationUid)`
(absent from this repository).  Fetches the attestation and checks schema
match, attester equals the transaction's provider, non-revocation, that the
uid was not previously consumed, and that the embedded content hash matches
the transaction's recorded `proofReference`; returns a boolean and, on
success, the used-attestation set with the uid marked consumed. -/
def verify (cfg : VerifierConfig) (store : List Attestation)
    (used : List String) (tx : Transaction) (uid : String) :
    Bool × List String :=
  match lookupAttestation store uid with
  | none => (false, used)
  | some a =>
    if a.schema = cfg.deliverySchema ∧ a.attester = tx.provider ∧
        a.revocationTime = 0 ∧ uid ∉ used ∧
        some a.contentHash = tx.proofReference then
      (true, uid :: used)
    else (false, used)

/-- Modelled from the spec: the attestation step of `releaseEscrow` (absent
from this repository).  When policy requires an attestation, a uid already
consumed fails with `ReplayedAttestationError` and any other verification
failure aborts with `AttestationVerificationError`; on success the uid is
marked consumed. -/
def attestationGate (requireAtt : Bool) (cfg : VerifierConfig)
    (store : List Attestation) (used : List String) (tx : Transaction)
    (attUid : Option String) : Except KError (List String) :=
  if requireAtt then
    match attUid with
    | none => .error .AttestationVerificationError
    | some uid =>
      if uid ∈ used then .error .ReplayedAttestationError
      else if (verify cfg store used tx uid).fst then
        .ok (verify cfg store used tx uid).snd
      else .error .AttestationVerificationError
  else .ok used

/-- Modelled from the spec: `releaseEscrow(txId, attestationUid?)` of the
kernel (absent from this repository).  Only legal from `DELIVERED` once the
dispute window has elapsed with no dispute raised (else
`DisputeWindowActiveError`); if attestation is required by policy the
verifier gate runs first; then the full transaction amount is paid to the
provider and the transaction transitions to `SETTLED`. -/
def releaseEscrow (now : Int) (requireAtt : Bool) (cfg : VerifierConfig)
    (store : List Attestation) (used : List String) (tx : Transaction)
    (e : Escrow) (b : Nat → Int) (attUid : Option String) :
    Except KError (Transaction × Escrow × (Nat → Int) × List String) :=
  if tx.state ≠ State.DELIVERED then .error .InvalidStateError
  else
    match tx.deliveredAt with
    | none => .error .InvalidStateError
    | some d =>
      if now < d + tx.disputeWindow then .error .DisputeWindowActiveError
      else
        match attestationGate requireAtt cfg store used tx attUid with
        | .error er => .error er
        | .ok used' =>
          match release e b [⟨tx.provider, tx.amount⟩] with
          | .error er => .error er
          | .ok (e', b') => .ok ({ tx with state := .SETTLED }, e', b', used')

/-- Modelled from the spec: `resolveDispute(txId, resolution)` of the kernel
(absent from this repository).  Only legal from `DISPUTED` and restricted to
the mediator role (else `UnauthorizedError`); invokes the dispute resolver
and transitions to `SETTLED`. -/
def resolveDispute (caller mediator : Nat) (tx : Transaction) (e : Escrow)
    (b : Nat → Int) (r : Resolution) :
    Except KError (Transaction × Escrow × (Nat → Int)) :=
  if tx.state ≠ State.DISPUTED then .error .InvalidStateError
  else if caller ≠ mediator then .error .UnauthorizedError
  else
    match resolve tx.requester tx.provider mediator e b r with
    | .error er => .error er
    | .ok (e', b') => .ok ({ tx with state := .SETTLED }, e', b')

/-- Modelled from the spec: `cancelTransaction(txId)` of the kernel (absent
from this repository).  Only legal before `DELIVERED`; refunds locked funds
to the requester if an escrow exists; transitions to `CANCELLED`. -/
def cancelTransaction (tx : Transaction) (esc : Option Escrow) (b : Nat → Int) :
    Except KError (Transaction × Option Escrow × (Nat → Int)) :=
  if ordinal State.DELIVERED ≤ ordinal tx.state then .error .InvalidStateError
  else
    match esc with
    | none => .ok ({ tx with state := .CANCELLED }, none, b)
    | some e =>
      match release e b [⟨tx.requester, e.amount⟩] with
      | .error er => .error er
      | .ok (e', b') => .ok ({ tx with state := .CANCELLED }, some e', b')

end ACTP

namespace Helpers

/-- Decimal digit character of a digit (JS decimal rendering). -/
def digitChar : Nat → Char
  | 0 => '0'
  | 1 => '1'
  | 2 => '2'
  | 3 => '3'
  | 4 => '4'
  | 5 => '5'
  | 6 => '6'
  | 7 => '7'
  | 8 => '8'
  | _ => '9'

/-- Decimal digit denoted by a character, `10` when the character is not a
digit. -/
def charDigit (c : Char) : Nat :=
  if c = '0' then 0
  else if c = '1' then 1
  else if c = '2' then 2
  else if c = '3' then 3
  else if c = '4' then 4
  else if c = '5' then 5
  else if c = '6' then 6
  else if c = '7' then 7
  else if c = '8' then 8
  else if c = '9' then 9
  else 10

/-- Whether a character is a decimal digit. -/
def isDigitCh (c : Char) : Bool := decide (charDigit c < 10)

/-- Decimal digit characters of a natural number, most significant first
(JS `value.toString()` for a non-negative bigint). -/
def natChars (n : Nat) : List Char :=
  if n = 0 then ['0'] else (Nat.digits 10 n).reverse.map digitChar

/-- The value denoted by a most-significant-first decimal digit list. -/
def valMSB (l : List Nat) : Nat := l.foldl (fun acc d => acc * 10 + d) 0

/-- The value denoted by a most-significant-first digit-character list. -/
def charsVal (l : List Char) : Nat := valMSB (l.map charDigit)

/-- The zero-padding loop of ethers v6 `formatUnits` at 6 decimals:
`while (str.length <= decimals) str = "0" + str`. -/
def pad7 (l : List Char) : List Char :=
  if l.length ≤ 6 then pad7 ('0' :: l) else l
termination_by 7 - l.length
decreasing_by simp_all; omega

/-- The zero-trimming loop of ethers v6 `formatUnits`: strip leading `'0'`
characters while the following character exists and is not the decimal
point (applied to the reversed string it trims trailing zeros). -/
def trimZeros : List Char → List Char
  | '0' :: c :: rest => if c = '.' then '0' :: c :: rest else trimZeros (c :: rest)
  | l => l

/-- The unsigned body of ethers v6 `formatUnits` at 6 decimals: pad to at
least one whole digit, insert the decimal point six places from the right,
then trim leading zeros of the whole part and trailing zeros of the
fraction, leaving at least one digit on each side. -/
def unitsBody (str : List Char) : List Char :=
  let padded := pad7 str
  let idx := padded.length - 6
  let dotted := padded.take idx ++ '.' :: padded.drop idx
  (trimZeros ((trimZeros dotted).reverse)).reverse

/-- ethers v6 `formatUnits(value, 6)` (the internal `toString` helper of
`fixednumber.ts`): a minus sign for negative values, followed by the padded,
pointed and trimmed decimal rendering of the absolute value. -/
def formatUnits6 (v : Int) : String :=
  let negative := if v < 0 then "-" else ""
  negative ++ String.mk (unitsBody (natChars v.natAbs))

/-- The function `formatUSDC` from `src/utils/helpers.ts`: format a USDC amount
(6 decimals) to a human-readable string. -/
def formatUSDC (amount : Int) : String :=
  "$" ++ formatUnits6 amount ++ " USDC"

/-- The function `timeUntilDeadline` from `src/utils/helpers.ts`, with the current time
passed explicitly (the source reads `Date.now()`).  For a positive
difference the JS `Math.floor` divisions coincide with truncated natural
division. -/
def timeUntilDeadline (now deadline : Int) : String :=
  let diff := deadline - now
  if diff ≤ 0 then "EXPIRED"
  else
    let d := diff.toNat
    let hours := d / 3600
    let minutes := d % 3600 / 60
    if hours > 0 then toString hours ++ "h " ++ toString minutes ++ "m"
    else toString minutes ++ "m"

/-- Specification-side reading of a decimal character list with up to six
fraction digits: the number of smallest units (six implied decimal places)
it denotes. -/
def parseScaledNat (l : List Char) : Option Nat :=
  let w := l.takeWhile (fun c => !(c == '.'))
  match l.dropWhile (fun c => !(c == '.')) with
  | '.' :: f =>
    if w ≠ [] ∧ f ≠ [] ∧ f.length ≤ 6 ∧ w.all isDigitCh ∧ f.all isDigitCh then
      some (charsVal w * 10 ^ 6 + charsVal f * 10 ^ (6 - f.length))
    else none
  | _ => none

/-- Specification-side reading of a signed decimal string at six implied
decimal places. -/
def parseScaled6 (s : String) : Option Int :=
  match s.data with
  | '-' :: rest => (parseScaledNat rest).map (fun n => -(n : Int))
  | l => (parseScaledNat l).map (fun n => (n : Int))

end Helpers

namespace ACTP

/-- A sample delivered transaction (delivered at time 0, window 120). -/
def txDelivered : Transaction :=
  { id := 1, requester := 1, provider := 2, amount := 10, deadline := 100,
    disputeWindow := 120, state := .DELIVERED, escrowId := some 1,
    deliveredAt := some 0, proofReference := some "hash1" }

/-- A sample settled (terminal) transaction. -/
def txSettled : Transaction :=
  { txDelivered with state := .SETTLED }

/-- A sample disputed transaction. -/
def txDisputed : Transaction :=
  { txDelivered with state := .DISPUTED }

/-- A sample transaction in `INITIATED`. -/
def txInitiated : Transaction :=
  { txDelivered with
    state := .INITIATED
    escrowId := none
    deliveredAt := none
    proofReference := none }

/-- A sample locked escrow matching `txDelivered`. -/
def esc1 : Escrow :=
  { id := 1, transactionId := 1, amount := 10, locked := true, released := false }

/-- The escrow `esc1` after a successful release. -/
def esc1r : Escrow :=
  { id := 1, transactionId := 1, amount := 10, locked := false, released := true }

/-- A sample balance sheet. -/
def bal1 : Nat → Int := fun _ => 0

/-- A sample full payout to the provider of `txDelivered`. -/
def ps1 : List Payout := [{ dest := 2, amount := 10 }]

/-- The balances `bal1` after paying out `ps1`. -/
def bal1r : Nat → Int := applyPayouts bal1 ps1

/-- A sample verifier configuration. -/
def cfg1 : VerifierConfig := { deliverySchema := "schema1" }

/-- A sample attestation matching `txDelivered` under `cfg1`. -/
def att1 : Attestation :=
  { uid := "uid1", schema := "schema1", attester := 2, recipient := 1,
    revocationTime := 0, contentHash := "hash1" }

end ACTP

namespace ACTP

/-- Paying out a list of payouts credits every account with exactly the sum
of the payout entries addressed to it. -/
theorem applyPayouts_point (ps : List Payout) (b : Nat → Int) (a : Nat) :
    applyPayouts b ps a = b a + sumTo a ps := by
  induction ps generalizing b with
  | nil => simp [applyPayouts, sumTo]
  | cons p t ih =>
    have hstep : applyPayouts b (p :: t) = applyPayouts (credit b p.dest p.amount) t := rfl
    rw [hstep, ih]
    by_cases h : p.dest = a
    · subst h
      simp [credit, sumTo]
      ring
    · have h2 : ¬ a = p.dest := fun hc => h hc.symm
      simp [credit, sumTo, h, h2]

end ACTP

/-- C1: a `transitionState` attempt whose target ordinal is less than or
equal to the current state's ordinal fails with `InvalidStateError` (and
hence mutates nothing), except for the edge `DISPUTED → SETTLED`; and once a
transaction is terminal (`SETTLED` or `CANCELLED`), every operation on it
fails with `InvalidStateError`. -/
theorem c1_forward_only_and_terminal
    (now : Int) (tx : ACTP.Transaction) (target : ACTP.State)
    (pf : Option String) (reason evidence : String) (requireAtt : Bool)
    (cfg : ACTP.VerifierConfig) (store : List ACTP.Attestation)
    (used : List String) (e : ACTP.Escrow) (esc : Option ACTP.Escrow)
    (b : Nat → Int) (attUid : Option String) (caller mediator : Nat)
    (r : ACTP.Resolution) (funder : Int) (eid : Nat) :
    (ACTP.ordinal target ≤ ACTP.ordinal tx.state →
      ¬(tx.state = .DISPUTED ∧ target = .SETTLED) →
      ACTP.transitionState now tx target pf = .error .InvalidStateError)
  ∧ (ACTP.isTerminal tx.state = true →
        ACTP.transitionState now tx target pf = .error .InvalidStateError
      ∧ ACTP.raiseDispute now tx reason evidence = .error .InvalidStateError
      ∧ ACTP.releaseEscrow now requireAtt cfg store used tx e b attUid =
          .error .InvalidStateError
      ∧ ACTP.resolveDispute caller mediator tx e b r = .error .InvalidStateError
      ∧ ACTP.linkEscrow tx funder eid = .error .InvalidStateError
      ∧ ACTP.cancelTransaction tx esc b = .error .InvalidStateError) := by
  constructor
  · intro h1 h2
    by_cases ht : ACTP.isTerminal tx.state
    · simp [ACTP.transitionState, ht]
    · simp [ACTP.transitionState, ht, h1, h2]
  · intro ht
    cases hs : tx.state <;> simp [hs, ACTP.isTerminal] at ht <;>
      refine ⟨?_, ?_, ?_, ?_, ?_, ?_⟩ <;>
      simp [ACTP.transitionState, ACTP.raiseDispute, ACTP.releaseEscrow,
        ACTP.resolveDispute, ACTP.linkEscrow, ACTP.cancelTransaction,
        ACTP.isTerminal, ACTP.ordinal, hs]

/-- Witness for C1 at concrete inputs: a backward transition from
`DELIVERED` to `COMMITTED` fails, and raising a dispute on a settled
transaction fails. -/
theorem c1_witness :
    ACTP.transitionState 5 ACTP.txDelivered .COMMITTED none =
      .error .InvalidStateError
  ∧ ACTP.raiseDispute 5 ACTP.txSettled "bad" "ev" = .error .InvalidStateError :=
  ⟨(c1_forward_only_and_terminal 5 ACTP.txDelivered .COMMITTED none "bad" "ev"
      false ACTP.cfg1 [] [] ACTP.esc1 none ACTP.bal1 none 3 3
      ⟨0, 0, 0⟩ 0 1).1 (by decide) (by decide),
   ((c1_forward_only_and_terminal 5 ACTP.txSettled .COMMITTED none "bad" "ev"
      false ACTP.cfg1 [] [] ACTP.esc1 none ACTP.bal1 none 3 3
      ⟨0, 0, 0⟩ 0 1).2 (by decide)).2.1⟩

/-- C2: a successful `release` pays out exactly the escrow's locked amount
(the payouts sum to it and every account is credited with its share); a
release on a released or unlocked escrow fails with `AlreadyReleasedError`
and one with mismatched payouts fails with `AmountMismatchError`; and after
a successful release, any second `release` or `resolve` fails with
`AlreadyReleasedError`, leaving balances unchanged from the first release. -/
theorem c2_escrow_single_release
    (e e' : ACTP.Escrow) (b b' : Nat → Int) (ps ps2 : List ACTP.Payout)
    (req prov med : Nat) (r : ACTP.Resolution) :
    (ACTP.release e b ps = .ok (e', b') →
        ACTP.payoutSum ps = e.amount
      ∧ e'.released = true ∧ e'.locked = false
      ∧ (∀ a, b' a = b a + ACTP.sumTo a ps)
      ∧ ACTP.release e' b' ps2 = .error .AlreadyReleasedError
      ∧ ACTP.resolve req prov med e' b' r = .error .AlreadyReleasedError)
  ∧ (e.released = true → ACTP.release e b ps = .error .AlreadyReleasedError)
  ∧ (e.locked = false → e.released = false →
      ACTP.release e b ps = .error .AlreadyReleasedError)
  ∧ (e.released = false → e.locked = true → ACTP.payoutSum ps ≠ e.amount →
      ACTP.release e b ps = .error .AmountMismatchError) := by
  refine ⟨?_, ?_, ?_, ?_⟩
  · intro hok
    by_cases hrel : e.released
    · simp [ACTP.release, hrel] at hok
    · by_cases hlock : e.locked
      · by_cases hsum : ACTP.payoutSum ps = e.amount
        · simp [ACTP.release, hrel, hlock, hsum] at hok
          obtain ⟨he, hb⟩ := hok
          subst he
          subst hb
          refine ⟨hsum, rfl, rfl, fun a => ACTP.applyPayouts_point ps b a, ?_, ?_⟩
          · simp [ACTP.release]
          · simp [ACTP.resolve]
        · simp [ACTP.release, hrel, hlock, hsum] at hok
      · simp [ACTP.release, hrel, hlock] at hok
  · intro hrel
    simp [ACTP.release, hrel]
  · intro hlock hrel
    simp [ACTP.release, hrel, hlock]
  · intro hrel hlock hsum
    simp [ACTP.release, hrel, hlock, hsum]

/-- Witness for C2 at concrete inputs: releasing the sample escrow with a
full payout succeeds, the payouts sum to the escrow amount, the provider is
credited, and a second release fails with `AlreadyReleasedError`. -/
theorem c2_witness :
    ACTP.payoutSum ACTP.ps1 = ACTP.esc1.amount
  ∧ ACTP.release ACTP.esc1r ACTP.bal1r ACTP.ps1 = .error .AlreadyReleasedError
  ∧ ACTP.bal1r 2 = ACTP.bal1 2 + ACTP.sumTo 2 ACTP.ps1 :=
  have h := (c2_escrow_single_release ACTP.esc1 ACTP.esc1r ACTP.bal1 ACTP.bal1r
    ACTP.ps1 ACTP.ps1 1 2 3 ⟨0, 0, 10⟩).1 rfl
  ⟨h.1, h.2.2.2.2.1, h.2.2.2.1 2⟩

/-- C3: with `deliveredAt = T` and `disputeWindow = W`, evaluated lazily at
call time, `raiseDispute` strictly inside the window (at `T + W - 1`)
succeeds and after the deadline (at `T + W + 1`) fails with
`DisputeWindowExpiredError`; `releaseEscrow` before the deadline while the
transaction is still `DELIVERED` fails with `DisputeWindowActiveError`, and
after the deadline with no dispute raised succeeds. -/
theorem c3_dispute_window_boundary
    (tx : ACTP.Transaction) (T W : Int) (reason evidence : String)
    (cfg : ACTP.VerifierConfig) (store : List ACTP.Attestation)
    (used : List String) (e : ACTP.Escrow) (b : Nat → Int)
    (hst : tx.state = .DELIVERED) (hda : tx.deliveredAt = some T)
    (hw : tx.disputeWindow = W) (hlock : e.locked = true)
    (hrel : e.released = false) (hamt : e.amount = tx.amount) :
    ACTP.raiseDispute (T + W - 1) tx reason evidence =
      .ok { tx with state := .DISPUTED }
  ∧ ACTP.raiseDispute (T + W + 1) tx reason evidence =
      .error .DisputeWindowExpiredError
  ∧ ACTP.releaseEscrow (T + W - 1) false cfg store used tx e b none =
      .error .DisputeWindowActiveError
  ∧ ACTP.releaseEscrow (T + W + 1) false cfg store used tx e b none =
      .ok ({ tx with state := .SETTLED },
           { e with released := true, locked := false },
           ACTP.applyPayouts b [⟨tx.provider, tx.amount⟩], used) := by
  refine ⟨?_, ?_, ?_, ?_⟩
  · simp [ACTP.raiseDispute, hst, hda, hw, show T + W - 1 < T + W by omega]
  · simp [ACTP.raiseDispute, hst, hda, hw, show ¬(T + W + 1 < T + W) by omega]
  · simp [ACTP.releaseEscrow, hst, hda, hw, show T + W - 1 < T + W by omega]
  · simp [ACTP.releaseEscrow, hst, hda, hw, show ¬(T + W + 1 < T + W) by omega,
      ACTP.attestationGate, ACTP.release, hlock, hrel, ACTP.payoutSum, hamt]

/-- Witness for C3 at concrete inputs (delivered at 0, window 120). -/
theorem c3_witness :
    ACTP.raiseDispute (0 + 120 - 1) ACTP.txDelivered "late" "ev" =
      .ok { ACTP.txDelivered with state := .DISPUTED }
  ∧ ACTP.raiseDispute (0 + 120 + 1) ACTP.txDelivered "late" "ev" =
      .error .DisputeWindowExpiredError
  ∧ ACTP.releaseEscrow (0 + 120 - 1) false ACTP.cfg1 [] [] ACTP.txDelivered
      ACTP.esc1 ACTP.bal1 none = .error .DisputeWindowActiveError :=
  have h := c3_dispute_window_boundary ACTP.txDelivered 0 120 "late" "ev"
    ACTP.cfg1 [] [] ACTP.esc1 ACTP.bal1 rfl rfl rfl rfl rfl rfl
  ⟨h.1, h.2.1, h.2.2.1⟩

/-- C4: for a transaction in `DELIVERED` whose dispute window has elapsed
with no dispute raised, `releaseEscrow` pays the full transaction amount to
the provider and transitions the transaction to `SETTLED`. -/
theorem c4_release_pays_provider
    (now T : Int) (tx : ACTP.Transaction) (cfg : ACTP.VerifierConfig)
    (store : List ACTP.Attestation) (used : List String) (e : ACTP.Escrow)
    (b : Nat → Int) (hst : tx.state = .DELIVERED)
    (hda : tx.deliveredAt = some T) (helapsed : T + tx.disputeWindow ≤ now)
    (hlock : e.locked = true) (hrel : e.released = false)
    (hamt : e.amount = tx.amount) :
    ACTP.releaseEscrow now false cfg store used tx e b none =
      .ok ({ tx with state := .SETTLED },
           { e with released := true, locked := false },
           ACTP.applyPayouts b [⟨tx.provider, tx.amount⟩], used)
  ∧ ACTP.applyPayouts b [⟨tx.provider, tx.amount⟩] tx.provider =
      b tx.provider + tx.amount := by
  constructor
  · simp [ACTP.releaseEscrow, hst, hda, show ¬(now < T + tx.disputeWindow) by omega,
      ACTP.attestationGate, ACTP.release, hlock, hrel, ACTP.payoutSum, hamt]
  · rw [ACTP.applyPayouts_point]
    simp [ACTP.sumTo]

/-- Witness for C4 at concrete inputs: releasing the sample delivered
transaction at time 121 settles it and credits the provider in full. -/
theorem c4_witness :
    ACTP.releaseEscrow 121 false ACTP.cfg1 [] [] ACTP.txDelivered ACTP.esc1
      ACTP.bal1 none =
      .ok ({ ACTP.txDelivered with state := .SETTLED },
           { ACTP.esc1 with released := true, locked := false },
           ACTP.applyPayouts ACTP.bal1 [⟨2, 10⟩], [])
  ∧ ACTP.applyPayouts ACTP.bal1 [⟨2, 10⟩] 2 = ACTP.bal1 2 + 10 :=
  c4_release_pays_provider 121 0 ACTP.txDelivered ACTP.cfg1 [] [] ACTP.esc1
    ACTP.bal1 rfl rfl (by decide) rfl rfl rfl

/-- C5: `resolveDispute` is legal only from `DISPUTED` (else
`InvalidStateError`) and only for the mediator (else `UnauthorizedError`);
a resolution whose non-negative amounts do not sum to the escrow amount is
rejected with `ResolutionAmountMismatchError` before any fund movement; on
success all three payouts are applied and the transaction is `SETTLED`. -/
theorem c5_resolve_dispute
    (caller mediator : Nat) (tx : ACTP.Transaction) (e : ACTP.Escrow)
    (b : Nat → Int) (r : ACTP.Resolution) :
    (tx.state ≠ .DISPUTED →
      ACTP.resolveDispute caller mediator tx e b r = .error .InvalidStateError)
  ∧ (tx.state = .DISPUTED → caller ≠ mediator →
      ACTP.resolveDispute caller mediator tx e b r = .error .UnauthorizedError)
  ∧ (tx.state = .DISPUTED → caller = mediator → e.released = false →
      0 ≤ r.requesterAmount → 0 ≤ r.providerAmount → 0 ≤ r.mediatorAmount →
      r.requesterAmount + r.providerAmount + r.mediatorAmount ≠ e.amount →
      ACTP.resolveDispute caller mediator tx e b r =
        .error .ResolutionAmountMismatchError)
  ∧ (tx.state = .DISPUTED → caller = mediator → e.released = false →
      e.locked = true → 0 ≤ r.requesterAmount → 0 ≤ r.providerAmount →
      0 ≤ r.mediatorAmount →
      r.requesterAmount + r.providerAmount + r.mediatorAmount = e.amount →
      ACTP.resolveDispute caller mediator tx e b r =
        .ok ({ tx with state := .SETTLED },
             { e with released := true, locked := false },
             ACTP.applyPayouts b
               [⟨tx.requester, r.requesterAmount⟩, ⟨tx.provider, r.providerAmount⟩,
                ⟨mediator, r.mediatorAmount⟩])
      ∧ (∀ a, ACTP.applyPayouts b
               [⟨tx.requester, r.requesterAmount⟩, ⟨tx.provider, r.providerAmount⟩,
                ⟨mediator, r.mediatorAmount⟩] a =
             b a + ACTP.sumTo a
               [⟨tx.requester, r.requesterAmount⟩, ⟨tx.provider, r.providerAmount⟩,
                ⟨mediator, r.mediatorAmount⟩])) := by
  refine ⟨?_, ?_, ?_, ?_⟩
  · intro hst
    simp [ACTP.resolveDispute, hst]
  · intro hst hc
    simp [ACTP.resolveDispute, hst, hc]
  · intro hst hc hrel h1 h2 h3 hsum
    simp [ACTP.resolveDispute, hst, hc, ACTP.resolve, hrel,
      show ¬(r.requesterAmount < 0 ∨ r.providerAmount < 0 ∨ r.mediatorAmount < 0)
        by omega, hsum]
  · intro hst hc hrel hlock h1 h2 h3 hsum
    constructor
    · simp [ACTP.resolveDispute, hst, hc, ACTP.resolve, hrel, hlock,
        show ¬(r.requesterAmount < 0 ∨ r.providerAmount < 0 ∨ r.mediatorAmount < 0)
          by omega,
        ACTP.release, ACTP.payoutSum, hsum, show r.requesterAmount +
          (r.providerAmount + r.mediatorAmount) = e.amount by omega]
    · intro a
      exact ACTP.applyPayouts_point _ b a

/-- Witness for C5 at concrete inputs: the mediator resolves the sample
dispute with a 4/6/0 split, which settles it; a 4/6/1 split is rejected with
`ResolutionAmountMismatchError`; a non-mediator is rejected with
`UnauthorizedError`. -/
theorem c5_witness :
    ACTP.resolveDispute 3 3 ACTP.txDisputed ACTP.esc1 ACTP.bal1 ⟨4, 6, 0⟩ =
      .ok ({ ACTP.txDisputed with state := .SETTLED },
           { ACTP.esc1 with released := true, locked := false },
           ACTP.applyPayouts ACTP.bal1 [⟨1, 4⟩, ⟨2, 6⟩, ⟨3, 0⟩])
  ∧ ACTP.resolveDispute 3 3 ACTP.txDisputed ACTP.esc1 ACTP.bal1 ⟨4, 6, 1⟩ =
      .error .ResolutionAmountMismatchError
  ∧ ACTP.resolveDispute 4 3 ACTP.txDisputed ACTP.esc1 ACTP.bal1 ⟨4, 6, 0⟩ =
      .error .UnauthorizedError :=
  ⟨((c5_resolve_dispute 3 3 ACTP.txDisputed ACTP.esc1 ACTP.bal1
      ⟨4, 6, 0⟩).2.2.2 rfl rfl rfl rfl (by decide) (by decide) (by decide)
      (by decide)).1,
   (c5_resolve_dispute 3 3 ACTP.txDisputed ACTP.esc1 ACTP.bal1
      ⟨4, 6, 1⟩).2.2.1 rfl rfl rfl (by decide) (by decide) (by decide)
      (by decide),
   (c5_resolve_dispute 4 3 ACTP.txDisputed ACTP.esc1 ACTP.bal1
      ⟨4, 6, 0⟩).2.1 rfl (by decide)⟩

namespace ACTP

/-- A successful verification marks the uid as consumed. -/
theorem verify_marks_consumed (cfg : VerifierConfig) (store : List Attestation)
    (used : List String) (tx : Transaction) (uid : String)
    (h : (verify cfg store used tx uid).fst = true) :
    (verify cfg store used tx uid).snd = uid :: used := by
  cases hfind : lookupAttestation store uid with
  | none => simp [verify, hfind] at h
  | some a =>
    by_cases hC : a.schema = cfg.deliverySchema ∧ a.attester = tx.provider ∧
        a.revocationTime = 0 ∧ uid ∉ used ∧ some a.contentHash = tx.proofReference
    · simp [verify, hfind, hC]
    · simp [verify, hfind, hC] at h

/-- A successful attestation gate (with attestation required) leaves the uid
in the returned used-attestation set. -/
theorem attestationGate_ok_mem (cfg : VerifierConfig) (store : List Attestation)
    (used : List String) (tx : Transaction) (uid : String) (used' : List String)
    (h : attestationGate true cfg store used tx (some uid) = .ok used') :
    uid ∈ used' := by
  by_cases hin : uid ∈ used
  · simp [attestationGate, hin] at h
  · by_cases hv : (verify cfg store used tx uid).fst = true
    · simp [attestationGate, hin, hv] at h
      rw [← h, verify_marks_consumed cfg store used tx uid hv]
      exact List.mem_cons_self uid used
    · simp [attestationGate, hin, hv] at h

/-- A successful `releaseEscrow` implies its attestation gate succeeded with
the returned used-attestation set. -/
theorem releaseEscrow_ok_gate (now : Int) (requireAtt : Bool)
    (cfg : VerifierConfig) (store : List Attestation) (used : List String)
    (tx tx' : Transaction) (e e' : Escrow) (b b' : Nat → Int)
    (attUid : Option String) (used' : List String)
    (h : releaseEscrow now requireAtt cfg store used tx e b attUid =
      .ok (tx', e', b', used')) :
    attestationGate requireAtt cfg store used tx attUid = .ok used' := by
  by_cases h1 : tx.state = State.DELIVERED
  · cases hda : tx.deliveredAt with
    | none => simp [releaseEscrow, h1, hda] at h
    | some d =>
      by_cases h2 : now < d + tx.disputeWindow
      · simp [releaseEscrow, h1, hda, h2] at h
      · cases hg : attestationGate requireAtt cfg store used tx attUid with
        | error er => simp [releaseEscrow, h1, hda, h2, hg] at h
        | ok u =>
          cases hr : release e b [⟨tx.provider, tx.amount⟩] with
          | error er => simp [releaseEscrow, h1, hda, h2, hg, hr] at h
          | ok p =>
            simp [releaseEscrow, h1, hda, h2, hg, hr] at h
            rw [h.2.2.2]
  · simp [releaseEscrow, h1] at h

end ACTP

/-- C6: `verify` succeeds exactly when the attestation exists with the
configured schema, the transaction's provider as attester, no revocation, an
unconsumed uid, and a content hash matching the recorded `proofReference`;
on success it marks the uid consumed; a `releaseEscrow` using an
already-consumed uid fails with `ReplayedAttestationError`; and any other
verification failure aborts the release with no fund movement. -/
theorem c6_attestation_replay_protection
    (cfg : ACTP.VerifierConfig) (store : List ACTP.Attestation)
    (used : List String) (tx : ACTP.Transaction) (uid : String)
    (now T : Int) (e : ACTP.Escrow) (b : Nat → Int) :
    ((ACTP.verify cfg store used tx uid).fst = true ↔
      ∃ a, ACTP.lookupAttestation store uid = some a
        ∧ a.schema = cfg.deliverySchema ∧ a.attester = tx.provider
        ∧ a.revocationTime = 0 ∧ uid ∉ used
        ∧ some a.contentHash = tx.proofReference)
  ∧ ((ACTP.verify cfg store used tx uid).fst = true →
      (ACTP.verify cfg store used tx uid).snd = uid :: used)
  ∧ (tx.state = .DELIVERED → tx.deliveredAt = some T →
      T + tx.disputeWindow ≤ now → uid ∈ used →
      ACTP.releaseEscrow now true cfg store used tx e b (some uid) =
        .error .ReplayedAttestationError)
  ∧ (tx.state = .DELIVERED → tx.deliveredAt = some T →
      T + tx.disputeWindow ≤ now → uid ∉ used →
      (ACTP.verify cfg store used tx uid).fst = false →
      ACTP.releaseEscrow now true cfg store used tx e b (some uid) =
        .error .AttestationVerificationError)
  ∧ (∀ tx' e' b' used',
      ACTP.releaseEscrow now true cfg store used tx e b (some uid) =
        .ok (tx', e', b', used') → uid ∈ used') := by
  refine ⟨?_, ACTP.verify_marks_consumed cfg store used tx uid, ?_, ?_, ?_⟩
  · cases hfind : ACTP.lookupAttestation store uid with
    | none =>
      constructor
      · intro h
        simp [ACTP.verify, hfind] at h
      · rintro ⟨a, ha, -⟩
        cases ha
    | some a =>
      by_cases hC : a.schema = cfg.deliverySchema ∧ a.attester = tx.provider ∧
          a.revocationTime = 0 ∧ uid ∉ used ∧ some a.contentHash = tx.proofReference
      · constructor
        · intro _
          exact ⟨a, rfl, hC.1, hC.2.1, hC.2.2.1, hC.2.2.2.1, hC.2.2.2.2⟩
        · intro _
          simp [ACTP.verify, hfind, hC]
      · constructor
        · intro h
          simp [ACTP.verify, hfind, hC] at h
        · rintro ⟨a', ha', h1, h2, h3, h4, h5⟩
          injection ha' with haa
          subst haa
          exact absurd ⟨h1, h2, h3, h4, h5⟩ hC
  · intro hst hda hel hin
    simp [ACTP.releaseEscrow, hst, hda, show ¬(now < T + tx.disputeWindow) by omega,
      ACTP.attestationGate, hin]
  · intro hst hda hel hnotin hvf
    simp [ACTP.releaseEscrow, hst, hda, show ¬(now < T + tx.disputeWindow) by omega,
      ACTP.attestationGate, hnotin, hvf]
  · intro tx' e' b' used' h
    exact ACTP.attestationGate_ok_mem cfg store used tx uid used'
      (ACTP.releaseEscrow_ok_gate now true cfg store used tx tx' e e' b b'
        (some uid) used' h)

/-- Witness for C6 at concrete inputs: verifying the sample attestation
consumes its uid, and a release attempt with the already-consumed uid fails
with `ReplayedAttestationError`. -/
theorem c6_witness :
    (ACTP.verify ACTP.cfg1 [ACTP.att1] [] ACTP.txDelivered "uid1").snd = ["uid1"]
  ∧ ACTP.releaseEscrow 121 true ACTP.cfg1 [ACTP.att1] ["uid1"] ACTP.txDelivered
      ACTP.esc1 ACTP.bal1 (some "uid1") = .error .ReplayedAttestationError :=
  have h := c6_attestation_replay_protection ACTP.cfg1 [ACTP.att1] []
    ACTP.txDelivered "uid1" 121 0 ACTP.esc1 ACTP.bal1
  have h2 := c6_attestation_replay_protection ACTP.cfg1 [ACTP.att1] ["uid1"]
    ACTP.txDelivered "uid1" 121 0 ACTP.esc1 ACTP.bal1
  ⟨h.2.1 (by decide), h2.2.2.1 rfl rfl (by decide) (by decide)⟩

/-- C7: `createTransaction` fails exactly when `amount ≤ 0`, `deadline ≤
now`, or `disputeWindow` is below the configured policy minimum, and
otherwise returns a new transaction in `INITIATED` carrying the given
fields. -/
theorem c7_create_transaction
    (now policyMin : Int) (freshId requester provider : Nat)
    (amount deadline disputeWindow : Int) :
    (amount ≤ 0 ∨ deadline ≤ now ∨ disputeWindow < policyMin →
      ACTP.createTransaction now policyMin freshId requester provider amount
        deadline disputeWindow = .error .ValidationError)
  ∧ (0 < amount → now < deadline → policyMin ≤ disputeWindow →
      ACTP.createTransaction now policyMin freshId requester provider amount
        deadline disputeWindow =
        .ok { id := freshId, requester := requester, provider := provider,
              amount := amount, deadline := deadline,
              disputeWindow := disputeWindow, state := .INITIATED,
              escrowId := none, deliveredAt := none, proofReference := none }) := by
  constructor
  · intro h
    simp [ACTP.createTransaction, h]
  · intro h1 h2 h3
    simp [ACTP.createTransaction,
      show ¬(amount ≤ 0 ∨ deadline ≤ now ∨ disputeWindow < policyMin) by omega]

/-- Witness for C7 at concrete inputs: valid parameters produce an
`INITIATED` transaction, and a zero amount is rejected. -/
theorem c7_witness :
    ACTP.createTransaction 0 3600 1 1 2 10 100 3600 =
      .ok { id := 1, requester := 1, provider := 2, amount := 10,
            deadline := 100, disputeWindow := 3600, state := .INITIATED,
            escrowId := none, deliveredAt := none, proofReference := none }
  ∧ ACTP.createTransaction 0 3600 1 1 2 0 100 3600 =
      .error .ValidationError :=
  ⟨(c7_create_transaction 0 3600 1 1 2 10 100 3600).2 (by decide) (by decide)
      (by decide),
   (c7_create_transaction 0 3600 1 1 2 0 100 3600).1 (by decide)⟩

/-- C8: for a transaction in `INITIATED` or `QUOTED` with sufficient
funding, `linkEscrow` creates a new locked escrow whose amount equals the
transaction's amount, sets `escrowId` and auto-transitions the transaction
to `COMMITTED`, after which a second `linkEscrow` fails (so `escrowId` is
set exactly once); it fails with `InvalidStateError` from any other state
and with `InsufficientFundsError` when funding cannot cover the amount. -/
theorem c8_link_escrow
    (tx : ACTP.Transaction) (funder funder2 : Int) (eid eid2 : Nat) :
    (tx.state ≠ .INITIATED ∧ tx.state ≠ .QUOTED →
      ACTP.linkEscrow tx funder eid = .error .InvalidStateError)
  ∧ ((tx.state = .INITIATED ∨ tx.state = .QUOTED) → funder < tx.amount →
      ACTP.linkEscrow tx funder eid = .error .InsufficientFundsError)
  ∧ ((tx.state = .INITIATED ∨ tx.state = .QUOTED) → tx.amount ≤ funder →
      ACTP.linkEscrow tx funder eid =
        .ok ({ tx with escrowId := some eid, state := .COMMITTED },
             { id := eid, transactionId := tx.id, amount := tx.amount,
               locked := true, released := false })
      ∧ ACTP.linkEscrow { tx with escrowId := some eid, state := .COMMITTED }
          funder2 eid2 = .error .InvalidStateError) := by
  refine ⟨?_, ?_, ?_⟩
  · intro h
    simp [ACTP.linkEscrow, h.1, h.2]
  · intro hst hf
    rcases hst with h | h <;> simp [ACTP.linkEscrow, h, hf]
  · intro hst hf
    constructor
    · rcases hst with h | h <;>
        simp [ACTP.linkEscrow, h, show ¬(funder < tx.amount) by omega]
    · simp [ACTP.linkEscrow]

/-- Witness for C8 at concrete inputs: linking the sample `INITIATED`
transaction commits it and creates a locked escrow of its amount, and a
second link on the committed transaction fails. -/
theorem c8_witness :
    ACTP.linkEscrow ACTP.txInitiated 10 7 =
      .ok ({ ACTP.txInitiated with escrowId := some 7, state := .COMMITTED },
           { id := 7, transactionId := 1, amount := 10, locked := true,
             released := false })
  ∧ ACTP.linkEscrow { ACTP.txInitiated with escrowId := some 7, state := .COMMITTED }
      10 8 = .error .InvalidStateError :=
  (c8_link_escrow ACTP.txInitiated 10 10 7 8).2.2 (Or.inl rfl) (by decide)

namespace Helpers

/-- Round trip of digit characters on proper digits. -/
theorem charDigit_digitChar : ∀ d < 10, charDigit (digitChar d) = d := by decide

/-- A digit character is recognised as a digit. -/
theorem isDigitCh_digitChar (d : Nat) : isDigitCh (digitChar d) = true := by
  unfold digitChar
  split <;> decide

/-- A digit character is never the decimal point. -/
theorem digitChar_ne_dot (d : Nat) : digitChar d ≠ '.' := by
  unfold digitChar
  split <;> decide

/-- A digit character is never the minus sign. -/
theorem digitChar_ne_dash (d : Nat) : digitChar d ≠ '-' := by
  unfold digitChar
  split <;> decide

/-- A nonzero digit renders as a character other than `'0'`. -/
theorem digitChar_ne_zero : ∀ d < 10, d ≠ 0 → digitChar d ≠ '0' := by decide

/-- Folding the base-10 accumulation from an arbitrary seed. -/
theorem valMSB_foldl (l : List Nat) :
    ∀ init, l.foldl (fun acc d => acc * 10 + d) init =
      init * 10 ^ l.length + valMSB l := by
  induction l with
  | nil =>
    intro init
    simp [valMSB]
  | cons d t ih =>
    intro init
    have h1 : (d :: t).foldl (fun acc d => acc * 10 + d) init =
        t.foldl (fun acc d => acc * 10 + d) (init * 10 + d) := rfl
    have h2 : valMSB (d :: t) = d * 10 ^ t.length + valMSB t := by
      have h3 : valMSB (d :: t) = t.foldl (fun acc d => acc * 10 + d) d := by
        simp [valMSB]
      rw [h3, ih]
    rw [h1, ih, h2, List.length_cons, pow_succ]
    ring

/-- The value of a concatenation of digit lists. -/
theorem valMSB_append (l1 l2 : List Nat) :
    valMSB (l1 ++ l2) = valMSB l1 * 10 ^ l2.length + valMSB l2 := by
  unfold valMSB
  rw [List.foldl_append]
  exact valMSB_foldl l2 _

/-- Leading zeros carry no value. -/
theorem valMSB_replicate_zero (t : Nat) : valMSB (List.replicate t 0) = 0 := by
  induction t with
  | zero => rfl
  | succ k ih =>
    show valMSB (0 :: List.replicate k 0) = 0
    exact ih

/-- A most-significant-first reading of reversed digits is `Nat.ofDigits`. -/
theorem valMSB_reverse (l : List Nat) : valMSB l.reverse = Nat.ofDigits 10 l := by
  induction l with
  | nil => rfl
  | cons d t ih =>
    rw [List.reverse_cons, valMSB_append, ih, Nat.ofDigits_cons]
    simp [valMSB]
    ring

/-- Mapping a digit list through rendering and reading is the identity. -/
theorem map_charDigit_digitChar (l : List Nat) (hl : ∀ d ∈ l, d < 10) :
    l.map (fun d => charDigit (digitChar d)) = l := by
  induction l with
  | nil => rfl
  | cons d t ih =>
    simp only [List.map_cons]
    rw [charDigit_digitChar d (hl d (by simp)),
      ih (fun x hx => hl x (by simp [hx]))]

/-- The decimal rendering of a natural number reads back to it. -/
theorem charsVal_natChars (n : Nat) : charsVal (natChars n) = n := by
  by_cases h : n = 0
  · subst h
    decide
  · unfold natChars charsVal
    rw [if_neg h, List.map_map]
    have hdig : ∀ d ∈ (Nat.digits 10 n).reverse, d < 10 := by
      intro d hd
      exact Nat.digits_lt_base (by norm_num) (List.mem_reverse.mp hd)
    have hcomp : (Nat.digits 10 n).reverse.map (charDigit ∘ digitChar) =
        (Nat.digits 10 n).reverse.map (fun d => charDigit (digitChar d)) := rfl
    rw [hcomp, map_charDigit_digitChar _ hdig, valMSB_reverse,
      Nat.ofDigits_digits]

end Helpers

namespace Helpers

/-- Closed form of the padding loop: prepend zeros up to length 7. -/
theorem pad7_eq : ∀ k l, 7 - l.length ≤ k →
    pad7 l = List.replicate (7 - l.length) '0' ++ l := by
  intro k
  induction k with
  | zero =>
    intro l h
    have hl : ¬ l.length ≤ 6 := by omega
    rw [pad7, if_neg hl, show 7 - l.length = 0 by omega]
    simp
  | succ k ih =>
    intro l h
    by_cases hl : l.length ≤ 6
    · rw [pad7, if_pos hl, ih ('0' :: l) (by simp; omega)]
      rw [show 7 - ('0' :: l).length = 7 - l.length - 1 by simp; omega]
      rw [show 7 - l.length = (7 - l.length - 1) + 1 by omega]
      rw [List.replicate_succ']
      simp
    · rw [pad7, if_neg hl, show 7 - l.length = 0 by omega]
      simp

/-- Closed form of the padding loop. -/
theorem pad7_closed (l : List Char) :
    pad7 l = List.replicate (7 - l.length) '0' ++ l :=
  pad7_eq (7 - l.length) l le_rfl

/-- Padded lists have length at least 7. -/
theorem pad7_length (l : List Char) :
    (pad7 l).length = 7 - l.length + l.length := by
  rw [pad7_closed]
  simp

/-- Leading zero characters carry no value. -/
theorem charsVal_replicate_zero_append (k : Nat) (l : List Char) :
    charsVal (List.replicate k '0' ++ l) = charsVal l := by
  unfold charsVal
  rw [List.map_append, valMSB_append, List.map_replicate]
  rw [show charDigit '0' = 0 from rfl, valMSB_replicate_zero]
  simp

/-- Trailing zero characters multiply the value by a power of ten. -/
theorem charsVal_append_replicate_zero (l : List Char) (t : Nat) :
    charsVal (l ++ List.replicate t '0') = charsVal l * 10 ^ t := by
  unfold charsVal
  rw [List.map_append, valMSB_append, List.map_replicate]
  rw [show charDigit '0' = 0 from rfl, valMSB_replicate_zero]
  simp

/-- The trimming loop leaves a list alone when its head is not `'0'`. -/
theorem trimZeros_cons_of_ne (c : Char) (t : List Char) (h : c ≠ '0') :
    trimZeros (c :: t) = c :: t := by
  rw [trimZeros.eq_def]
  split
  · rename_i c2 rest heq
    injection heq with h1 h2
    exact absurd h1 h
  · rfl

/-- The trimming loop stops at a zero followed by the decimal point. -/
theorem trimZeros_zero_dot (t : List Char) :
    trimZeros ('0' :: '.' :: t) = '0' :: '.' :: t := by
  rw [trimZeros.eq_def]
  simp

/-- The trimming loop on digit characters followed by a decimal point:
leading zeros are dropped, leaving a single `'0'` when everything was
zero. -/
theorem trimZeros_strip (R : List Char) (w : List Char)
    (hR : R ≠ []) (hd : ∀ c ∈ R, c ≠ '.') :
    trimZeros (R ++ '.' :: w) =
      (if R.dropWhile (fun c => c == '0') = [] then ['0']
       else R.dropWhile (fun c => c == '0')) ++ '.' :: w := by
  induction R with
  | nil => exact absurd rfl hR
  | cons c R' ih =>
    by_cases hc : c = '0'
    · subst hc
      cases R' with
      | nil =>
        simp only [List.cons_append, List.nil_append]
        rw [trimZeros_zero_dot]
        simp [List.dropWhile]
      | cons c' R'' =>
        have hc' : c' ≠ '.' := hd c' (by simp)
        have hstep : trimZeros ('0' :: c' :: (R'' ++ '.' :: w)) =
            trimZeros (c' :: (R'' ++ '.' :: w)) := by
          rw [trimZeros.eq_def]
          split
          · rename_i c2 rest heq
            injection heq with h1 h2
            injection h2 with h3 h4
            subst h3
            subst h4
            rw [if_neg hc']
          · rename_i hno
            exact (hno c' (R'' ++ '.' :: w) rfl).elim
        simp only [List.cons_append]
        rw [hstep]
        have := ih (by simp) (fun x hx => hd x (by simp [hx]))
        simp only [List.cons_append] at this
        rw [this]
        simp [List.dropWhile_cons]
    · simp only [List.cons_append]
      rw [trimZeros_cons_of_ne c _ hc]
      simp [List.dropWhile_cons, hc]

end Helpers

namespace Helpers

/-- The decimal rendering of a natural number is nonempty. -/
theorem natChars_ne_nil (n : Nat) : natChars n ≠ [] := by
  unfold natChars
  by_cases h : n = 0
  · simp [h]
  · simp [h, Nat.digits_ne_nil_iff_ne_zero.mpr h]

/-- Every character of a decimal rendering is a digit character. -/
theorem natChars_digits (n : Nat) :
    ∀ c ∈ natChars n, ∃ d, d < 10 ∧ c = digitChar d := by
  intro c hc
  unfold natChars at hc
  by_cases h : n = 0
  · rw [if_pos h] at hc
    simp at hc
    exact ⟨0, by norm_num, by rw [hc]; rfl⟩
  · rw [if_neg h] at hc
    rw [List.mem_map] at hc
    obtain ⟨d, hd, hcd⟩ := hc
    exact ⟨d, Nat.digits_lt_base (by norm_num) (List.mem_reverse.mp hd), hcd.symm⟩

/-- The leading character of the decimal rendering of a nonzero natural
number is not `'0'`. -/
theorem natChars_head_ne_zero (n : Nat) (h : n ≠ 0) (c : Char) (W' : List Char)
    (hW : natChars n = c :: W') : c ≠ '0' := by
  unfold natChars at hW
  rw [if_neg h] at hW
  cases hrev : (Nat.digits 10 n).reverse with
  | nil =>
    rw [hrev] at hW
    simp at hW
  | cons d rest =>
    rw [hrev] at hW
    simp only [List.map_cons] at hW
    injection hW with h1 h2
    have hlast : (Nat.digits 10 n).getLast? = some d := by
      rw [← List.head?_reverse, hrev]
      rfl
    have hnil : Nat.digits 10 n ≠ [] := Nat.digits_ne_nil_iff_ne_zero.mpr h
    have hne : d ≠ 0 := by
      have h0 : (Nat.digits 10 n).getLast hnil ≠ 0 :=
        Nat.getLast_digit_ne_zero 10 h
      rw [List.getLast?_eq_getLast _ hnil] at hlast
      injection hlast with hlast2
      rw [← hlast2]
      exact h0
    have hd10 : d < 10 := by
      have hmem : d ∈ (Nat.digits 10 n).reverse := by
        rw [hrev]
        simp
      exact Nat.digits_lt_base (by norm_num) (List.mem_reverse.mp hmem)
    rw [← h1]
    exact digitChar_ne_zero d hd10 hne

/-- Splitting a list at the first character failing a predicate all earlier
ones satisfy. -/
theorem takeWhile_dropWhile_append (p : Char → Bool) (l : List Char) (r : Char)
    (rest : List Char) (hl : ∀ c ∈ l, p c = true) (hr : p r = false) :
    (l ++ r :: rest).takeWhile p = l ∧
    (l ++ r :: rest).dropWhile p = r :: rest := by
  induction l with
  | nil => simp [List.takeWhile_cons, List.dropWhile_cons, hr]
  | cons c t ih =>
    have hc := hl c (by simp)
    have iht := ih (fun x hx => hl x (by simp [hx]))
    simp only [List.cons_append, List.takeWhile_cons, List.dropWhile_cons, hc]
    simp [iht.1, iht.2]

end Helpers

namespace Helpers

/-- The value of concatenated digit-character lists. -/
theorem charsVal_append (l1 l2 : List Char) :
    charsVal (l1 ++ l2) = charsVal l1 * 10 ^ l2.length + charsVal l2 := by
  unfold charsVal
  rw [List.map_append, valMSB_append, List.length_map]

/-- Evaluating the specification-side parser on a well-formed split decimal
character list. -/
theorem parseScaledNat_eval (W F' : List Char) (hWne : W ≠ [])
    (hWdot : ∀ c ∈ W, c ≠ '.') (hWdig : ∀ c ∈ W, isDigitCh c = true)
    (hF'ne : F' ≠ []) (hF'len : F'.length ≤ 6)
    (hF'dig : ∀ c ∈ F', isDigitCh c = true) :
    parseScaledNat (W ++ '.' :: F') =
      some (charsVal W * 10 ^ 6 + charsVal F' * 10 ^ (6 - F'.length)) := by
  have htd := takeWhile_dropWhile_append (fun c => !(c == '.')) W '.' F'
    (fun c hc => by simp [hWdot c hc]) (by simp)
  unfold parseScaledNat
  rw [htd.1, htd.2]
  show (if W ≠ [] ∧ F' ≠ [] ∧ F'.length ≤ 6 ∧ W.all isDigitCh = true ∧
      F'.all isDigitCh = true then
      some (charsVal W * 10 ^ 6 + charsVal F' * 10 ^ (6 - F'.length))
    else none) =
    some (charsVal W * 10 ^ 6 + charsVal F' * 10 ^ (6 - F'.length))
  rw [if_pos]
  exact ⟨hWne, hF'ne, hF'len, List.all_eq_true.mpr hWdig,
    List.all_eq_true.mpr hF'dig⟩

/-- Stripping trailing zeros from a six-digit fraction preserves its scaled
value. -/
theorem stripped_value (F : List Char) (hFlen : F.length = 6) :
    charsVal ((if F.reverse.dropWhile (fun c => c == '0') = [] then ['0']
        else F.reverse.dropWhile (fun c => c == '0')).reverse) *
      10 ^ (6 - ((if F.reverse.dropWhile (fun c => c == '0') = [] then ['0']
        else F.reverse.dropWhile (fun c => c == '0')).reverse).length) =
      charsVal F := by
  by_cases hD0 : F.reverse.dropWhile (fun c => c == '0') = []
  · have hall := List.dropWhile_eq_nil_iff.mp hD0
    have hFz : ∀ c ∈ F, c = '0' := by
      intro c hc
      have := hall c (List.mem_reverse.mpr hc)
      simpa using this
    have hFrep : F = List.replicate F.length '0' := List.eq_replicate_of_mem hFz
    have hzero : charsVal (List.replicate F.length '0') = 0 := by
      unfold charsVal
      rw [List.map_replicate, show charDigit '0' = 0 from rfl]
      exact valMSB_replicate_zero _
    rw [if_pos hD0]
    rw [show charsVal ([('0' : Char)].reverse) = 0 from by decide]
    rw [hFrep, hzero]
    simp
  · rw [if_neg hD0]
    have hsplit := List.takeWhile_append_dropWhile
      (p := fun c => c == '0') (l := F.reverse)
    have hZzero : ∀ c ∈ F.reverse.takeWhile (fun c => c == '0'), c = '0' := by
      intro c hc
      have := List.mem_takeWhile_imp hc
      simpa using this
    have hZrep : F.reverse.takeWhile (fun c => c == '0') =
        List.replicate (F.reverse.takeWhile (fun c => c == '0')).length '0' :=
      List.eq_replicate_of_mem hZzero
    have hF : F = (F.reverse.dropWhile (fun c => c == '0')).reverse ++
        List.replicate (F.reverse.takeWhile (fun c => c == '0')).length '0' := by
      conv_lhs => rw [← List.reverse_reverse F, ← hsplit]
      rw [List.reverse_append]
      congr 1
      rw [hZrep, List.reverse_replicate]
      simp
    have hlen : (F.reverse.dropWhile (fun c => c == '0')).reverse.length +
        (F.reverse.takeWhile (fun c => c == '0')).length = 6 := by
      have h1 := congrArg List.length hsplit
      simp only [List.length_append, List.length_reverse] at h1 ⊢
      omega
    conv_rhs => rw [hF]
    rw [charsVal_append_replicate_zero]
    rw [show 6 - (F.reverse.dropWhile (fun c => c == '0')).reverse.length =
      (F.reverse.takeWhile (fun c => c == '0')).length by omega]

end Helpers

namespace Helpers

/-- Trimming a well-formed decimal character list: the whole part is left
alone and the fraction keeps its scaled value. -/
theorem parse_trim (W F : List Char)
    (hWne : W ≠ [])
    (hWd : ∀ c ∈ W, ∃ d, d < 10 ∧ c = digitChar d)
    (hFlen : F.length = 6)
    (hFd : ∀ c ∈ F, ∃ d, d < 10 ∧ c = digitChar d)
    (hhead : ∀ c W', W = c :: W' → (c ≠ '0' ∨ W' = [])) :
    ∃ F' : List Char,
      (trimZeros ((trimZeros (W ++ '.' :: F)).reverse)).reverse = W ++ '.' :: F'
      ∧ parseScaledNat (W ++ '.' :: F') =
          some (charsVal W * 10 ^ 6 + charsVal F) := by
  have hWdot : ∀ c ∈ W, c ≠ '.' := by
    intro c hc
    obtain ⟨d, -, hcd⟩ := hWd c hc
    rw [hcd]
    exact digitChar_ne_dot d
  have hFdot : ∀ c ∈ F, c ≠ '.' := by
    intro c hc
    obtain ⟨d, -, hcd⟩ := hFd c hc
    rw [hcd]
    exact digitChar_ne_dot d
  have hWdig : ∀ c ∈ W, isDigitCh c = true := by
    intro c hc
    obtain ⟨d, -, hcd⟩ := hWd c hc
    rw [hcd]
    exact isDigitCh_digitChar d
  have h1 : trimZeros (W ++ '.' :: F) = W ++ '.' :: F := by
    cases W with
    | nil => exact absurd rfl hWne
    | cons c W' =>
      rcases hhead c W' rfl with hc0 | hnil
      · rw [List.cons_append, trimZeros_cons_of_ne c _ hc0]
      · subst hnil
        by_cases hc : c = '0'
        · subst hc
          simp only [List.cons_append, List.nil_append]
          exact trimZeros_zero_dot F
        · rw [List.cons_append, trimZeros_cons_of_ne c _ hc]
  have hRne : F.reverse ≠ [] := by
    intro hcon
    have hl := congrArg List.length hcon
    simp [hFlen] at hl
  have hRdot : ∀ c ∈ F.reverse, c ≠ '.' :=
    fun c hc => hFdot c (List.mem_reverse.mp hc)
  have h3 := trimZeros_strip F.reverse W.reverse hRne hRdot
  refine ⟨(if F.reverse.dropWhile (fun c => c == '0') = [] then ['0']
      else F.reverse.dropWhile (fun c => c == '0')).reverse, ?_, ?_⟩
  · rw [h1]
    rw [show (W ++ '.' :: F).reverse = F.reverse ++ '.' :: W.reverse by simp]
    rw [h3]
    simp
  · have hGne : (if F.reverse.dropWhile (fun c => c == '0') = [] then ['0']
        else F.reverse.dropWhile (fun c => c == '0')) ≠ [] := by
      by_cases hD0 : F.reverse.dropWhile (fun c => c == '0') = [] <;> simp [hD0]
    have hGrevne : (if F.reverse.dropWhile (fun c => c == '0') = [] then ['0']
        else F.reverse.dropWhile (fun c => c == '0')).reverse ≠ [] := by
      simpa using hGne
    have hGrevlen : ((if F.reverse.dropWhile (fun c => c == '0') = [] then ['0']
        else F.reverse.dropWhile (fun c => c == '0')).reverse).length ≤ 6 := by
      by_cases hD0 : F.reverse.dropWhile (fun c => c == '0') = []
      · simp [hD0]
      · rw [if_neg hD0, List.length_reverse]
        calc (F.reverse.dropWhile (fun c => c == '0')).length
            ≤ F.reverse.length := (List.dropWhile_sublist _).length_le
          _ = 6 := by simp [hFlen]
    have hGrevdig : ∀ c ∈ (if F.reverse.dropWhile (fun c => c == '0') = []
        then ['0'] else F.reverse.dropWhile (fun c => c == '0')).reverse,
        isDigitCh c = true := by
      intro c hc
      rw [List.mem_reverse] at hc
      by_cases hD0 : F.reverse.dropWhile (fun c => c == '0') = []
      · rw [if_pos hD0] at hc
        simp at hc
        subst hc
        decide
      · rw [if_neg hD0] at hc
        have hcF : c ∈ F :=
          List.mem_reverse.mp ((List.dropWhile_sublist _).subset hc)
        obtain ⟨d, -, hcd⟩ := hFd c hcF
        rw [hcd]
        exact isDigitCh_digitChar d
    rw [parseScaledNat_eval W _ hWne hWdot hWdig hGrevne hGrevlen hGrevdig]
    rw [stripped_value F hFlen]

end Helpers

namespace Helpers

/-- The formatted body of a natural number parses back to it and starts with
a digit character. -/
theorem unitsBody_spec (n : Nat) :
    parseScaledNat (unitsBody (natChars n)) = some n
    ∧ ∃ c rest, unitsBody (natChars n) = c :: rest ∧ isDigitCh c = true := by
  have hLne : natChars n ≠ [] := natChars_ne_nil n
  have hLlen : 1 ≤ (natChars n).length := List.length_pos.mpr hLne
  have hPlen : (pad7 (natChars n)).length =
      7 - (natChars n).length + (natChars n).length := pad7_length (natChars n)
  have hP7 : 7 ≤ (pad7 (natChars n)).length := by omega
  have hWlen : ((pad7 (natChars n)).take ((pad7 (natChars n)).length - 6)).length =
      (pad7 (natChars n)).length - 6 := by
    rw [List.length_take]
    omega
  have hFlen : ((pad7 (natChars n)).drop ((pad7 (natChars n)).length - 6)).length = 6 := by
    rw [List.length_drop]
    omega
  have hPdig : ∀ c ∈ pad7 (natChars n), ∃ d, d < 10 ∧ c = digitChar d := by
    intro c hc
    rw [pad7_closed] at hc
    rcases List.mem_append.mp hc with hcr | hcl
    · exact ⟨0, by norm_num, by rw [List.eq_of_mem_replicate hcr]; rfl⟩
    · exact natChars_digits n c hcl
  have hWd : ∀ c ∈ (pad7 (natChars n)).take ((pad7 (natChars n)).length - 6),
      ∃ d, d < 10 ∧ c = digitChar d :=
    fun c hc => hPdig c (List.take_subset _ _ hc)
  have hFd : ∀ c ∈ (pad7 (natChars n)).drop ((pad7 (natChars n)).length - 6),
      ∃ d, d < 10 ∧ c = digitChar d :=
    fun c hc => hPdig c (List.drop_subset _ _ hc)
  have hWne : (pad7 (natChars n)).take ((pad7 (natChars n)).length - 6) ≠ [] := by
    intro hcon
    have hl := congrArg List.length hcon
    rw [hWlen] at hl
    simp at hl
    omega
  have hhead : ∀ c W',
      (pad7 (natChars n)).take ((pad7 (natChars n)).length - 6) = c :: W' →
      (c ≠ '0' ∨ W' = []) := by
    intro c W' hWc
    by_cases hlen6 : (natChars n).length ≤ 6
    · right
      have hW1 : ((pad7 (natChars n)).take ((pad7 (natChars n)).length - 6)).length = 1 := by
        omega
      rw [hWc] at hW1
      simp at hW1
      exact hW1
    · left
      have hn0 : n ≠ 0 := by
        intro hn
        apply hlen6
        rw [hn]
        decide
      have hPL : pad7 (natChars n) = natChars n := by
        rw [pad7_closed, show 7 - (natChars n).length = 0 by omega]
        simp
      cases hLc : natChars n with
      | nil => exact absurd hLc hLne
      | cons c0 rest =>
        have hc0 : c0 ≠ '0' := natChars_head_ne_zero n hn0 c0 rest hLc
        obtain ⟨k, hk⟩ : ∃ k, (pad7 (natChars n)).length - 6 = k + 1 :=
          ⟨(pad7 (natChars n)).length - 7, by omega⟩
        have hWc0 : (pad7 (natChars n)).take ((pad7 (natChars n)).length - 6) =
            c0 :: rest.take k := by
          rw [hk, hPL, hLc, List.take_succ_cons]
        rw [hWc] at hWc0
        injection hWc0 with hceq hrest
        rw [hceq]
        exact hc0
  obtain ⟨F', hshape, hparse⟩ := parse_trim _ _ hWne hWd hFlen hFd hhead
  have hval : charsVal ((pad7 (natChars n)).take ((pad7 (natChars n)).length - 6)) *
      10 ^ 6 + charsVal ((pad7 (natChars n)).drop ((pad7 (natChars n)).length - 6)) =
      n := by
    have h1 : charsVal ((pad7 (natChars n)).take ((pad7 (natChars n)).length - 6) ++
        (pad7 (natChars n)).drop ((pad7 (natChars n)).length - 6)) =
        charsVal ((pad7 (natChars n)).take ((pad7 (natChars n)).length - 6)) * 10 ^ 6 +
        charsVal ((pad7 (natChars n)).drop ((pad7 (natChars n)).length - 6)) := by
      rw [charsVal_append, hFlen]
    rw [List.take_append_drop] at h1
    rw [← h1, pad7_closed, charsVal_replicate_zero_append, charsVal_natChars]
  have hbody : unitsBody (natChars n) =
      (trimZeros ((trimZeros ((pad7 (natChars n)).take ((pad7 (natChars n)).length - 6) ++
        '.' :: (pad7 (natChars n)).drop ((pad7 (natChars n)).length - 6))).reverse)).reverse :=
    rfl
  constructor
  · rw [hbody, hshape, hparse, hval]
  · cases hWc : (pad7 (natChars n)).take ((pad7 (natChars n)).length - 6) with
    | nil => exact absurd hWc hWne
    | cons c rest =>
      refine ⟨c, rest ++ '.' :: F', ?_, ?_⟩
      · rw [hbody, hshape, hWc]
        rfl
      · obtain ⟨d, -, hcd⟩ := hWd c (by rw [hWc]; simp)
        rw [hcd]
        exact isDigitCh_digitChar d

end Helpers

namespace Helpers

/-- A digit character is not the minus sign. -/
theorem isDigitCh_ne_dash (c : Char) (h : isDigitCh c = true) : c ≠ '-' := by
  intro hc
  rw [hc] at h
  exact absurd h (by decide)

/-- ethers v6 `formatUnits` at 6 decimals followed by the
specification-side reading is the identity: the printed string denotes
exactly the formatted amount in smallest units. -/
theorem formatUnits6_roundtrip (v : Int) :
    parseScaled6 (formatUnits6 v) = some v := by
  obtain ⟨hparse, c, rest, hshape, hdig⟩ := unitsBody_spec v.natAbs
  by_cases hv : v < 0
  · have hdata : (formatUnits6 v).data = '-' :: unitsBody (natChars v.natAbs) := by
      unfold formatUnits6
      rw [if_pos hv]
      rfl
    unfold parseScaled6
    rw [hdata]
    show (parseScaledNat (unitsBody (natChars v.natAbs))).map
      (fun n => -(n : Int)) = some v
    rw [hparse]
    have habs : ((v.natAbs : Int)) = -v :=
      Int.ofNat_natAbs_of_nonpos (by omega)
    simp [habs]
  · have hdata : (formatUnits6 v).data = unitsBody (natChars v.natAbs) := by
      unfold formatUnits6
      rw [if_neg hv]
      rfl
    unfold parseScaled6
    rw [hdata, hshape]
    split
    · rename_i rest2 heq
      injection heq with h1 h2
      exact absurd h1 (isDigitCh_ne_dash c hdig)
    · rw [← hshape, hparse]
      simp [Int.natAbs_of_nonneg (show (0 : Int) ≤ v by omega)]

/-- No string ending in `'m'` is the string `"EXPIRED"`. -/
theorem append_m_ne_expired (s : String) : s ++ "m" ≠ "EXPIRED" := by
  intro h
  have h2 : (s ++ "m").data = "EXPIRED".data := by rw [h]
  have h3 : (s ++ "m").data = s.data ++ ['m'] := rfl
  rw [h3] at h2
  have h4 := congrArg List.getLast? h2
  rw [List.getLast?_concat] at h4
  exact absurd h4 (by decide)

end Helpers

/-- C9: every amount crossing the boundary is an integer in smallest units
with six implied decimals, and `formatUSDC` renders it for display: the
result is `"$"`, then the ethers `formatUnits` rendering of the amount
scaled down by `10 ^ 6` (which parses back to exactly the amount), then
`" USDC"`. -/
theorem c9_format_usdc (amount : Int) :
    Helpers.formatUSDC amount = "$" ++ Helpers.formatUnits6 amount ++ " USDC"
  ∧ Helpers.parseScaled6 (Helpers.formatUnits6 amount) = some amount :=
  ⟨rfl, Helpers.formatUnits6_roundtrip amount⟩

/-- C10: `timeUntilDeadline` returns `"EXPIRED"` exactly when the deadline
is at or before the current time; otherwise, with `diff = deadline - now`,
it returns `"<hours>h <minutes>m"` when `diff ≥ 3600` and `"<minutes>m"`
otherwise, with `hours = ⌊diff / 3600⌋` and `minutes = ⌊(diff mod 3600) /
60⌋`. -/
theorem c10_time_until_deadline (now deadline : Int) :
    (Helpers.timeUntilDeadline now deadline = "EXPIRED" ↔ deadline ≤ now)
  ∧ (now < deadline → 3600 ≤ deadline - now →
      Helpers.timeUntilDeadline now deadline =
        toString ((deadline - now).toNat / 3600) ++ "h " ++
        toString ((deadline - now).toNat % 3600 / 60) ++ "m")
  ∧ (now < deadline → deadline - now < 3600 →
      Helpers.timeUntilDeadline now deadline =
        toString ((deadline - now).toNat % 3600 / 60) ++ "m") := by
  refine ⟨⟨?_, ?_⟩, ?_, ?_⟩
  · intro h
    by_contra hc
    push_neg at hc
    simp only [Helpers.timeUntilDeadline] at h
    rw [if_neg (show ¬(deadline - now ≤ 0) by omega)] at h
    by_cases hh : (deadline - now).toNat / 3600 > 0
    · rw [if_pos hh] at h
      exact Helpers.append_m_ne_expired _ h
    · rw [if_neg hh] at h
      exact Helpers.append_m_ne_expired _ h
  · intro h
    simp only [Helpers.timeUntilDeadline]
    rw [if_pos (show deadline - now ≤ 0 by omega)]
  · intro h1 h2
    simp only [Helpers.timeUntilDeadline]
    rw [if_neg (show ¬(deadline - now ≤ 0) by omega)]
    rw [if_pos (show (deadline - now).toNat / 3600 > 0 from
      Nat.div_pos (by omega) (by omega))]
  · intro h1 h2
    simp only [Helpers.timeUntilDeadline]
    rw [if_neg (show ¬(deadline - now ≤ 0) by omega)]
    rw [if_neg (show ¬((deadline - now).toNat / 3600 > 0) from by
      have hz : (deadline - now).toNat / 3600 = 0 := Nat.div_eq_of_lt (by omega)
      omega)]

/-- Witness for C10 at concrete inputs: 7300 seconds ahead renders as hours
and minutes, and a past deadline renders as `"EXPIRED"`. -/
theorem c10_witness :
    Helpers.timeUntilDeadline 0 7300 =
      toString (((7300 : Int) - 0).toNat / 3600) ++ "h " ++
      toString (((7300 : Int) - 0).toNat % 3600 / 60) ++ "m"
  ∧ Helpers.timeUntilDeadline 100 50 = "EXPIRED" :=
  ⟨(c10_time_until_deadline 0 7300).2.1 (by decide) (by decide),
   (c10_time_until_deadline 100 50).1.mpr (by decide)⟩
